import Mathlib

/-!
Verification development for the Superlative Semiconductor RFIDr MCU firmware
(`rfidr_state.c` / `rfidr_sx1257.c`).  The C sources are shallowly embedded as
pure Lean functions: the file-local C state variables (`m_rfidr_state`,
`m_rfidr_state_next`, `m_track_tag_state_flag`, `m_dtc_state_flag`,
`m_hopskip_nonce`, `m_sx1257_frequency_slot`, ...) are carried in explicit
record types; machine integers are modelled as `Nat` (with `% 256` or `% 25`
wherever the C type can wrap); hardware interactions (the FPGA exit code read
back after each go/ack handshake, values read from RX RAM, the SX1257
registers) are supplied by explicit environment records; SPI register writes
are modelled as succeeding, which is the fault-free hardware assumption under
which the firmware-level claims are stated.
-/

namespace Rfidr

/-- The `rfidr_state_t` enumeration from `rfidr_state.h`, in declaration
order, so that `stateCode` below reproduces the numeric values the C compiler
assigns to the enumerators. -/
inductive RfidrState where
  | IDLE_UNCONFIGURED
  | IDLE_CONFIGURED
  | INITIALIZING
  | SEARCHING_APP_SPECD_TAG
  | SEARCHING_LAST_INV_TAG
  | INVENTORYING
  | TESTING_DTC
  | PROGRAMMING_APP_SPECD_TAG
  | PROGRAMMING_LAST_INV_TAG
  | RECOVERING_WAVEFORM_MEMORY
  | RESET_SX1257_AND_FPGA
  | KILL_TAG
  | PROGRAMMING_KILL_PASSWD
  | TRACK_APP_SPECD_TAG
  | TRACK_LAST_INV_TAG
  deriving DecidableEq, Repr

open RfidrState

/-- The integer value of each `rfidr_state_t` enumerator (C gives the
enumerators consecutive values starting at 0 in declaration order). -/
def stateCode : RfidrState → Nat
  | IDLE_UNCONFIGURED => 0
  | IDLE_CONFIGURED => 1
  | INITIALIZING => 2
  | SEARCHING_APP_SPECD_TAG => 3
  | SEARCHING_LAST_INV_TAG => 4
  | INVENTORYING => 5
  | TESTING_DTC => 6
  | PROGRAMMING_APP_SPECD_TAG => 7
  | PROGRAMMING_LAST_INV_TAG => 8
  | RECOVERING_WAVEFORM_MEMORY => 9
  | RESET_SX1257_AND_FPGA => 10
  | KILL_TAG => 11
  | PROGRAMMING_KILL_PASSWD => 12
  | TRACK_APP_SPECD_TAG => 13
  | TRACK_LAST_INV_TAG => 14

/-- The file-local state variables of `rfidr_state.c` that the state-request
handler and the shared error handler touch.  `notifications` counts the
messages pushed to the application (error messages and state read-backs),
so that "sends at least one notification" can be stated. -/
structure FwState where
  state : RfidrState
  next : RfidrState
  trackFlag : Bool
  dtcFlag : Bool
  paEnabled : Bool
  led1 : Bool
  notifications : Nat
  deriving DecidableEq, Repr

/-- Embedding of `write_rfidr_state_next` (rfidr_state.c).  Every branch of
the C `switch` is reproduced, including the `RESET_SX1257_AND_FPGA` guard,
whose final disjunct in the source is the bare enumerator
`TRACK_LAST_INV_TAG` (not `m_rfidr_state==TRACK_LAST_INV_TAG`): C evaluates
it as the truth value of the constant 14, which is embedded here literally as
`stateCode TRACK_LAST_INV_TAG ≠ 0`.  The `default` case of the C switch does
nothing. -/
def write_rfidr_state_next (fw : FwState) (req : RfidrState) : FwState :=
  match req with
  | INITIALIZING =>
      if fw.state = IDLE_UNCONFIGURED then { fw with next := INITIALIZING }
      else if fw.state = IDLE_CONFIGURED then { fw with next := fw.state }
      else { fw with next := fw.state }
  | SEARCHING_APP_SPECD_TAG
  | SEARCHING_LAST_INV_TAG
  | INVENTORYING
  | PROGRAMMING_APP_SPECD_TAG
  | PROGRAMMING_LAST_INV_TAG
  | KILL_TAG
  | PROGRAMMING_KILL_PASSWD
  | RECOVERING_WAVEFORM_MEMORY
  | TESTING_DTC =>
      if fw.state = IDLE_CONFIGURED then { fw with next := req }
      else { fw with next := fw.state }
  | TRACK_APP_SPECD_TAG =>
      if fw.state = IDLE_CONFIGURED then
        { fw with trackFlag := true, next := req }
      else if fw.state = TRACK_APP_SPECD_TAG then
        { fw with trackFlag := false, next := fw.state }
      else { fw with next := fw.state }
  | TRACK_LAST_INV_TAG =>
      if fw.state = IDLE_CONFIGURED then
        { fw with trackFlag := true, next := req }
      else if fw.state = TRACK_LAST_INV_TAG then
        { fw with trackFlag := false, next := fw.state }
      else { fw with next := fw.state }
  | RESET_SX1257_AND_FPGA =>
      if fw.state = IDLE_CONFIGURED ∨ fw.state = IDLE_UNCONFIGURED ∨
         fw.state = TESTING_DTC ∨ fw.state = TRACK_APP_SPECD_TAG ∨
         stateCode TRACK_LAST_INV_TAG ≠ 0 then
        { fw with next := req }
      else { fw with next := fw.state }
  | _ => fw

/-- Embedding of `handle_error` (rfidr_state.c) composed with the
`rfidr_state_bookend_function` call it ends with.  The string formatting is
not modelled; each message pushed to the application (the error message and
the bookend state read-back) increments `notifications`. -/
def handle_error (fw : FwState) : FwState :=
  let fw := { fw with paEnabled := false,
                      notifications := fw.notifications + 1,
                      trackFlag := false,
                      dtcFlag := false }
  let fw :=
    if fw.state = IDLE_UNCONFIGURED ∨ fw.state = INITIALIZING then
      { fw with led1 := false, next := IDLE_UNCONFIGURED, state := IDLE_UNCONFIGURED }
    else
      { fw with led1 := true, next := IDLE_CONFIGURED, state := IDLE_CONFIGURED }
  { fw with notifications := fw.notifications + 1 }

/-- The frequency tuning-word base `FREQUENCY_CODE_BASE` from `rfidr_sx1257.c`. -/
def FREQUENCY_CODE_BASE : Nat := 0x00CB5555

/-- Embedding of `sx1257_frequency_decode` (rfidr_sx1257.c): the 25-entry
slot-to-tuning-word table.  Values are the exact `uint32_t` results of the C
expressions `FREQUENCY_CODE_BASE ± offset`. -/
def sx1257_frequency_decode (slot : Nat) : Nat :=
  match slot with
  | 0 => FREQUENCY_CODE_BASE - 0x0002AAAA
  | 1 => FREQUENCY_CODE_BASE - 0x000271C7
  | 2 => FREQUENCY_CODE_BASE - 0x000238E3
  | 3 => FREQUENCY_CODE_BASE - 0x00020000
  | 4 => FREQUENCY_CODE_BASE - 0x0001C71C
  | 5 => FREQUENCY_CODE_BASE - 0x00018E38
  | 6 => FREQUENCY_CODE_BASE - 0x00015555
  | 7 => FREQUENCY_CODE_BASE - 0x00011C71
  | 8 => FREQUENCY_CODE_BASE - 0x0000E38E
  | 9 => FREQUENCY_CODE_BASE - 0x0000AAAA
  | 10 => FREQUENCY_CODE_BASE - 0x000071C7
  | 11 => FREQUENCY_CODE_BASE - 0x000038E3
  | 12 => FREQUENCY_CODE_BASE
  | 13 => FREQUENCY_CODE_BASE + 0x000038E3
  | 14 => FREQUENCY_CODE_BASE + 0x000071C7
  | 15 => FREQUENCY_CODE_BASE + 0x0000AAAA
  | 16 => FREQUENCY_CODE_BASE + 0x0000E38E
  | 17 => FREQUENCY_CODE_BASE + 0x00011C71
  | 18 => FREQUENCY_CODE_BASE + 0x00015555
  | 19 => FREQUENCY_CODE_BASE + 0x00018E38
  | 20 => FREQUENCY_CODE_BASE + 0x0001C71C
  | 21 => FREQUENCY_CODE_BASE + 0x00020000
  | 22 => FREQUENCY_CODE_BASE + 0x000238E3
  | 23 => FREQUENCY_CODE_BASE + 0x000271C7
  | 24 => FREQUENCY_CODE_BASE + 0x0002AAAA
  | _ => FREQUENCY_CODE_BASE

/-- The slot update performed by `hop_sx1257_frequency` (rfidr_sx1257.c):
`m_sx1257_frequency_slot = (m_sx1257_frequency_slot+7) % 25`. -/
def hop_slot (s : Nat) : Nat := (s + 7) % 25

/-- `k`-fold iteration of the hop slot update. -/
def hop_iter : Nat → Nat → Nat
  | 0, s => s
  | k + 1, s => hop_iter k (hop_slot s)

/-- The SX1257 frequency slot together with the hop/skip nonce
`m_hopskip_nonce` of `rfidr_state.c` (a `uint8_t`, hence the `% 256`). -/
structure SxState where
  slot : Nat
  nonce : Nat
  deriving DecidableEq, Repr

/-- Embedding of `hop_sx1257_frequency` (rfidr_sx1257.c): advances the
file-local frequency slot; the SPI register reprogramming writes
`sx1257_frequency_decode` of the new slot and is modelled as succeeding. -/
def hop_sx1257_frequency (st : SxState) : SxState :=
  { st with slot := hop_slot st.slot }

/-- Every call site of `hop_sx1257_frequency` in `rfidr_state.c`
(`tx_offset_calibration_brute_force`, `tx_offset_calibration_gradient`,
`inventory_core`, `tracking_core`, and the searching and programming cases of
`run_rfidr_state_machine`) is immediately followed by `m_hopskip_nonce++`;
this is the composite hop-and-bump step they all perform.  The nonce is a
`uint8_t`, so the increment wraps modulo 256. -/
def hop_and_bump_nonce (st : SxState) : SxState :=
  let st := hop_sx1257_frequency st
  { st with nonce := (st.nonce + 1) % 256 }

/-- The skip-slot computation in the tracking loop of `tracking_core`
(rfidr_state.c lines 1855-1863): `recover_frequency_slot ∓
(3-loop_cal_fails_outer)` with the sign chosen by `recover_frequency_slot >=
22`.  The arithmetic is `uint8_t`, embedded with an explicit `% 256`. -/
def skip_frequency_slot (slot fails : Nat) : Nat :=
  if 22 ≤ slot then (slot + 256 - (3 - fails)) % 256
  else (slot + (3 - fails)) % 256

/-- The skip transition: `set_sx1257_frequency(skip_frequency_slot)` with no
accompanying nonce increment (no call site of `set_sx1257_frequency` touches
`m_hopskip_nonce`). -/
def skip_step (st : SxState) (fails : Nat) : SxState :=
  { st with slot := skip_frequency_slot st.slot fails }

/-- `MAX_EPC_LENGTH_IN_BYTES` (rfidr_txradio.h): EPCs are 12 bytes. -/
def MAX_EPC_LENGTH_IN_BYTES : Nat := 12

/-- An all-zero EPC, the reset value of the EPC fields of `rfidr_return_t`. -/
def zero_epc : List Nat := List.replicate MAX_EPC_LENGTH_IN_BYTES 0

/-- The `rfidr_return_t` structure from `rfidr_rxradio.h`: per-path pass
flags, recovered EPC bytes, LNA gain at capture time, and the two signed
32-bit integrator magnitudes of each capture. -/
structure RfidrReturn where
  i_pass : Bool
  q_pass : Bool
  i_epc : List Nat
  q_epc : List Nat
  i_lna_gain : Nat
  q_lna_gain : Nat
  i_main_mag : Int
  i_alt_mag : Int
  q_main_mag : Int
  q_alt_mag : Int
  deriving DecidableEq, Repr

/-- The `rfidr_target_epc_t` enumeration from `rfidr_rxradio.h`. -/
inductive RfidrTargetEpc where
  | TARGET_APP_SPECD_EPC
  | TARGET_LAST_INV_EPC
  | TARGET_CAL_EPC
  | TARGET_PLL_EPC
  deriving DecidableEq, Repr

open RfidrTargetEpc

/-- The hardware-visible outcome of one search run: the radio exit code read
back after each path's go/ack handshake, and the RX-RAM/register contents
that `search_core` reads back on a pass (EPC bytes by index, the two
integrator magnitudes per capture, and the SX1257 LNA gain register). -/
structure SearchEnv where
  exitCodeI : Nat
  exitCodeQ : Nat
  epcI : Nat → Nat
  epcQ : Nat → Nat
  mainMagI : Int
  altMagI : Int
  mainMagQ : Int
  altMagQ : Int
  lnaGainI : Nat
  lnaGainQ : Nat

/-- Embedding of `rfidr_read_epc` (rfidr_rxradio.c): with
`READ_RXRAM_REGULAR` it reads `MAX_EPC_LENGTH_IN_BYTES` bytes from RX RAM;
with `READ_RXRAM_PLLCHECK` it stores zeros. -/
def rfidr_read_epc (bytes : Nat → Nat) (regular : Bool) : List Nat :=
  (List.range MAX_EPC_LENGTH_IN_BYTES).map fun i => if regular then bytes i else 0

/-- Embedding of `search_core` (rfidr_state.c).  The function first resets
every field of the caller's `rfidr_return_t` to its default (lines
1250-1262), then runs the I exchange followed by the Q exchange; a path's
result fields are written back only inside the branch guarded by
`target_epc==TARGET_PLL_EPC || read_radio_exit_code()==0`, and each readback
is further gated by the caller's `return_epc`/`return_mag`/`return_lna_gain`
flags.  SPI traffic is modelled as succeeding; the hardware-supplied values
come from `env`. -/
def search_core (env : SearchEnv) (target : RfidrTargetEpc)
    (returnEpc returnMag returnLna : Bool) (ret : RfidrReturn) : RfidrReturn :=
  let ret := { ret with
    i_pass := false, q_pass := false,
    i_epc := zero_epc, q_epc := zero_epc,
    i_lna_gain := 0xD4, q_lna_gain := 0xD4,
    i_main_mag := 0, i_alt_mag := 0, q_main_mag := 0, q_alt_mag := 0 }
  let regular := target ≠ TARGET_PLL_EPC
  let ret :=
    if target = TARGET_PLL_EPC ∨ env.exitCodeI = 0 then
      let ret := { ret with i_pass := true }
      let ret := if returnEpc then { ret with i_epc := rfidr_read_epc env.epcI regular } else ret
      let ret := if returnMag then { ret with i_main_mag := env.mainMagI, i_alt_mag := env.altMagI } else ret
      if returnLna then { ret with i_lna_gain := env.lnaGainI } else ret
    else ret
  if target = TARGET_PLL_EPC ∨ env.exitCodeQ = 0 then
    let ret := { ret with q_pass := true }
    let ret := if returnEpc then { ret with q_epc := rfidr_read_epc env.epcQ regular } else ret
    let ret := if returnMag then { ret with q_main_mag := env.mainMagQ, q_alt_mag := env.altMagQ } else ret
    if returnLna then { ret with q_lna_gain := env.lnaGainQ } else ret
  else ret

/-- The I/Q path choice made at the top of `program_core` (rfidr_state.c
lines 2181-2187), deciding which demodulation path the program operation
runs on: `some 0` means I (`set_use_i`), `some 1` means Q (`set_use_q`),
`none` means neither path passed and `program_core` bails with an error. -/
def program_q_select (r : RfidrReturn) : Option Nat :=
  if r.i_pass = true then
    some (if r.i_main_mag > r.i_alt_mag then 0 else 1)
  else if r.q_pass = true then
    some (if r.q_main_mag > r.q_alt_mag then 1 else 0)
  else
    none

/-- The path-selection policy as worded by the specification claim: the
passing path when exactly one passed; the path with the larger main
magnitude (I main versus Q main) when both passed; an error when neither
passed.  Used only to compare the claim's wording against
`program_q_select`. -/
def program_q_claim_policy (r : RfidrReturn) : Option Nat :=
  if r.i_pass = true ∧ r.q_pass = true then
    some (if r.i_main_mag > r.q_main_mag then 0 else 1)
  else if r.i_pass = true then some 0
  else if r.q_pass = true then some 1
  else none

/-- `MAX_PROG_RETRIES` (rfidr_state.c, `program_core`). -/
def MAX_PROG_RETRIES : Nat := 5

/-- Hardware behaviour seen by `program_core`: the radio exit code read back
after each pass of the retry loop (indexed by `loop_prog_retry`), and the
outcome of the EPC read-back comparison `rfidr_pull_and_check_read_data`. -/
structure ProgEnv where
  exitCode : Nat → Nat
  readbackOk : Bool

/-- Observable outcome of the `program_core` retry loop: how many go/ack
handshakes were issued, how many times `set_end_radio_fsm_loop` was set, and
whether the function returned `RFIDR_SUCCESS`. -/
structure ProgOut where
  goPulses : Nat
  endSignals : Nat
  ok : Bool
  deriving DecidableEq, Repr

/-- Embedding of the retry loop `for(loop_prog_retry = 0; loop_prog_retry <=
MAX_PROG_RETRIES+1; loop_prog_retry++)` of `program_core` (rfidr_state.c
lines 2256-2315).  Arguments: remaining iterations allowed by the loop bound
(structural fuel, `MAX_PROG_RETRIES + 2` at entry), the current
`loop_prog_retry` value, and the two instrumentation counters.  Each
iteration issues one go/ack handshake and then takes the branch of the C
if/else-if chain selected by the exit code and the retry index; falling out
of the loop reaches the trailing `return RFIDR_SUCCESS`. -/
def program_retry_loop (env : ProgEnv) (contentNewEpc : Bool) :
    Nat → Nat → Nat → Nat → ProgOut
  | 0, _, g, e => ⟨g, e, true⟩
  | fuel + 1, i, g, e =>
    let g := g + 1
    let x := env.exitCode i
    if x ≠ 0 ∧ i < MAX_PROG_RETRIES then
      program_retry_loop env contentNewEpc fuel (i + 1) g e
    else if x ≠ 0 ∧ i = MAX_PROG_RETRIES then
      program_retry_loop env contentNewEpc fuel (i + 1) g (e + 1)
    else if x ≠ 0 ∧ MAX_PROG_RETRIES ≤ i then
      ⟨g, e, false⟩
    else if x = 0 ∧ MAX_PROG_RETRIES ≤ i then
      ⟨g, e, true⟩
    else
      if contentNewEpc ∧ env.readbackOk = false then ⟨g, e, false⟩
      else ⟨g, e, true⟩

/-- The `program_core` retry phase, entered with `loop_prog_retry = 0` and
loop bound `loop_prog_retry <= MAX_PROG_RETRIES+1` (hence at most
`MAX_PROG_RETRIES + 2` iterations). -/
def program_core_retries (env : ProgEnv) (contentNewEpc : Bool) : ProgOut :=
  program_retry_loop env contentNewEpc (MAX_PROG_RETRIES + 2) 0 0 0

/-- `QUERY_ROUND_LIMIT` (rfidr_state.c, `inventory_core`). -/
def QUERY_ROUND_LIMIT : Nat := 36

/-- `MAX_QUERY_Q` (rfidr_state.c, `inventory_core`). -/
def MAX_QUERY_Q : Nat := 6

/-- The per-round query Q computation of `inventory_core`:
`q_value=(uint8_t)(*(query_q_vector+loop_query_q)-'0')` followed by the
clamp `q_value=(q_value > MAX_QUERY_Q) ? MAX_QUERY_Q : q_value`.  The vector
is a null-terminated byte string, modelled as a list whose out-of-range
reads yield the terminator 0. -/
def inv_q_value (v : List Nat) (i : Nat) : Nat :=
  min ((v.getD i 0 + 256 - 48) % 256) MAX_QUERY_Q

/-- The round indices actually executed by the `loop_query_q` loop of
`inventory_core`, whose C condition is `(*(query_q_vector+loop_query_q) !=
0) || loop_query_q < QUERY_ROUND_LIMIT`: the loop stops at the first index
at which that disjunction fails.  Such an index always exists below
`v.length + QUERY_ROUND_LIMIT + 1`, so taking the satisfying prefix of that
range reproduces the executed indices. -/
def inv_round_idxs (v : List Nat) : List Nat :=
  (List.range (v.length + QUERY_ROUND_LIMIT + 1)).takeWhile
    fun i => decide (v.getD i 0 ≠ 0 ∨ i < QUERY_ROUND_LIMIT)

/-- Hardware behaviour seen by `inventory_core`: the radio exit code read
back after the `k`-th go/ack handshake of the run (exit code 0 means a tag
was singulated and read). -/
structure InvEnv where
  exitCode : Nat → Nat

/-- The observable state threaded through `inventory_core`:
`m_num_inv_tags_found` (`tags`), the number of go/ack handshakes issued
(`pulses`, indexing `InvEnv.exitCode`), the hop/skip nonce and frequency
slot, and instrumentation counters for hops performed, rounds started,
`end_inventory` invocations and result notifications pushed. -/
structure InvSt where
  tags : Nat
  pulses : Nat
  nonce : Nat
  slot : Nat
  hops : Nat
  rounds : Nat
  endCalls : Nat
  notifs : Nat
  deriving DecidableEq, Repr

/-- Embedding of `end_inventory` (rfidr_state.c): disable the PA, set the
end-radio-FSM-loop bit, and run one final go/ack handshake so the FPGA radio
FSM returns to idle.  SPI traffic is modelled as succeeding. -/
def end_inventory (st : InvSt) : InvSt :=
  { st with endCalls := st.endCalls + 1, pulses := st.pulses + 1 }

/-- One `loop_q_iter` slot iteration of `inventory_core`: a go/ack
handshake, and on exit code 0 the tag-found path — increment
`m_num_inv_tags_found`, abort through `end_inventory` if
`m_num_inv_tags_found >= max_tags`, otherwise read back the EPC and
magnitudes and push one result notification (awaiting its acknowledgment).
Returns the successor state and whether the run aborted. -/
def inv_exchange (env : InvEnv) (maxTags : Nat) (st : InvSt) : InvSt × Bool :=
  let x := env.exitCode st.pulses
  let st := { st with pulses := st.pulses + 1 }
  if x = 0 then
    let st := { st with tags := st.tags + 1 }
    if maxTags ≤ st.tags then (end_inventory st, true)
    else ({ st with notifs := st.notifs + 1 }, false)
  else (st, false)

/-- The `loop_q_iter` loop of `inventory_core`: `2^Q + 1` slot iterations
(the C loop runs `loop_q_iter` from 0 to `1 << q_value` inclusive), stopping
early on abort. -/
def inv_q_iters (env : InvEnv) (maxTags : Nat) : Nat → InvSt → InvSt × Bool
  | 0, st => (st, false)
  | n + 1, st =>
    match inv_exchange env maxTags st with
    | (st', true) => (st', true)
    | (st', false) => inv_q_iters env maxTags n st'

/-- The state update performed at the top of each query round of
`inventory_core`: start a new round, hop the frequency
(`hop_sx1257_frequency`) and bump the hop/skip nonce (`m_hopskip_nonce++`,
a `uint8_t`). -/
def inv_round_entry (st : InvSt) : InvSt :=
  { st with
    rounds := st.rounds + 1,
    slot := hop_slot st.slot,
    nonce := (st.nonce + 1) % 256,
    hops := st.hops + 1 }

/-- One query round of `inventory_core`: hop frequency and bump the hop/skip
nonce (`hop_sx1257_frequency(...); m_hopskip_nonce++`), reload the query
packet, then run the slot loop once with `use_i` and once with `use_q`. -/
def inv_round (env : InvEnv) (maxTags q : Nat) (st : InvSt) : InvSt × Bool :=
  let st := inv_round_entry st
  match inv_q_iters env maxTags (2 ^ q + 1) st with
  | (st', true) => (st', true)
  | (st', false) => inv_q_iters env maxTags (2 ^ q + 1) st'

/-- The `loop_query_q` loop of `inventory_core` over the executed round
indices, stopping early on abort. -/
def inv_run_rounds (env : InvEnv) (maxTags : Nat) (v : List Nat) :
    List Nat → InvSt → InvSt × Bool
  | [], st => (st, false)
  | i :: rest, st =>
    match inv_round env maxTags (inv_q_value v i) st with
    | (st', true) => (st', true)
    | (st', false) => inv_run_rounds env maxTags v rest st'

/-- Embedding of `inventory_core` (rfidr_state.c): reset
`m_num_inv_tags_found`, run the query rounds, and on normal completion call
`end_inventory` once and return success; an aborted run has already called
`end_inventory` on its way out and returns an error (the `Bool` component,
`true` = error returned to the caller). -/
def inventory_core (env : InvEnv) (v : List Nat) (maxTags slot nonce : Nat) :
    InvSt × Bool :=
  let st0 : InvSt := ⟨0, 0, nonce, slot, 0, 0, 0, 0⟩
  match inv_run_rounds env maxTags v (inv_round_idxs v) st0 with
  | (st, true) => (st, true)
  | (st, false) => (end_inventory st, false)

/-- The tag-count invariant maintained between exchanges of a run of
`inventory_core` that has not aborted: the count has never reached the
`max_tags` bound (it is zero or still strictly below the bound). -/
def InvOk (maxTags : Nat) (st : InvSt) : Prop :=
  st.tags = 0 ∨ st.tags < maxTags

/-- A concrete hardware environment in which both the I and the Q exchange
report a nonzero exit code while the readable RX RAM and register values are
nonzero (so that any stale readback would be visible). -/
def search_env_fail_w : SearchEnv :=
  ⟨1, 1, fun _ => 0xAB, fun _ => 0xCD, 7, 8, 9, 10, 0x34, 0x94⟩

/-- A maximally dirty caller-side `rfidr_return_t`, holding the data of a
hypothetical earlier successful attempt. -/
def stale_return_w : RfidrReturn :=
  ⟨true, true, List.replicate 12 0xFF, List.replicate 12 0xEE,
    0x34, 0x94, 99, 98, 97, 96⟩

end Rfidr

namespace Rfidr

open RfidrState

/-- Claim C1: `write_rfidr_state_next` is claimed to leave the pending state
unchanged when a `RESET_SX1257_AND_FPGA` request arrives outside the legal
source states.  In the source the guard's last disjunct is the bare
enumerator `TRACK_LAST_INV_TAG` (value 14, always truthy), so the guard holds
in every state and the reset request is accepted from any state whatsoever —
in particular from the operational state `INVENTORYING`, where the claim (and
the code's own comment) says it must be ignored. -/
theorem reset_request_accepted_in_any_state :
    (∀ fw : FwState,
      (write_rfidr_state_next fw RESET_SX1257_AND_FPGA).next =
        RESET_SX1257_AND_FPGA) ∧
    (write_rfidr_state_next
        ⟨INVENTORYING, INVENTORYING, false, false, false, true, 0⟩
        RESET_SX1257_AND_FPGA).next = RESET_SX1257_AND_FPGA := by
  refine ⟨fun fw => ?_, by rfl⟩
  simp [write_rfidr_state_next, stateCode]

/-- Claim C5: on any error, `handle_error` disables the PA, clears both the
tracking and DTC sticky flags, sends at least one notification message, and
forces the machine into `IDLE_UNCONFIGURED` exactly when the state at error
time was `IDLE_UNCONFIGURED` or `INITIALIZING`, and into `IDLE_CONFIGURED` in
every other state (pending state made equal to the new current state). -/
theorem handle_error_spec (fw : FwState) :
    (handle_error fw).paEnabled = false ∧
    (handle_error fw).trackFlag = false ∧
    (handle_error fw).dtcFlag = false ∧
    fw.notifications + 1 ≤ (handle_error fw).notifications ∧
    (handle_error fw).state =
      (if fw.state = IDLE_UNCONFIGURED ∨ fw.state = INITIALIZING
        then IDLE_UNCONFIGURED else IDLE_CONFIGURED) ∧
    (handle_error fw).next = (handle_error fw).state := by
  unfold handle_error
  by_cases h : fw.state = IDLE_UNCONFIGURED ∨ fw.state = INITIALIZING <;>
    simp [h]

/-- Claim C7 counterexample: the claim says every tracking skip lands exactly
3 channels away from the current slot; on the second calibration retry
attempt (`loop_cal_fails_outer = 1`) the code skips by `3 - 1 = 2` channels,
e.g. from slot 10 to slot 12 rather than 13. -/
theorem skip_offset_not_always_three :
    skip_frequency_slot 10 1 = 12 ∧ skip_frequency_slot 10 1 ≠ 10 + 3 := by
  constructor <;> decide

/-- Claim C7 (amended): for every in-band slot `s < 25` and every retry
attempt `f < 3` of the tracking calibration loop, the skip target is offset
from `s` by exactly `3 - f` channels — downward when `s ≥ 22`, upward
otherwise — and always lies within `[0, 24]`. -/
theorem skip_slot_in_band (s f : Nat) (hs : s < 25) (hf : f < 3) :
    skip_frequency_slot s f =
      (if 22 ≤ s then s - (3 - f) else s + (3 - f)) ∧
    skip_frequency_slot s f ≤ 24 := by
  revert hf; revert f; revert hs; revert s
  decide

/-- Witness for `skip_slot_in_band` at slot 10, first attempt. -/
theorem skip_slot_in_band_witness :
    (10 : Nat) < 25 ∧ (1 : Nat) < 3 ∧
    (skip_frequency_slot 10 1 =
        (if 22 ≤ (10 : Nat) then 10 - (3 - 1) else 10 + (3 - 1)) ∧
      skip_frequency_slot 10 1 ≤ 24) :=
  ⟨by decide, by decide, skip_slot_in_band 10 1 (by decide) (by decide)⟩

/-- Claim C8: the hop update `slot ↦ (slot+7) % 25` of
`hop_sx1257_frequency` has full period 25 from every in-band start slot: it
returns to the start after exactly 25 hops, never earlier, and the first 25
iterates visit every one of the 25 slots (step 7 and channel count 25 are
coprime). -/
theorem hop_full_period (s : Nat) (hs : s < 25) :
    hop_iter 25 s = s ∧
    (∀ k, k < 25 → 0 < k → hop_iter k s ≠ s) ∧
    (∀ t, t < 25 → ∃ k, k < 25 ∧ hop_iter k s = t) ∧
    Nat.gcd 7 25 = 1 := by
  revert hs; revert s
  decide

/-- Witness for `hop_full_period` at the power-on slot 12. -/
theorem hop_full_period_witness :
    (12 : Nat) < 25 ∧
    (hop_iter 25 12 = 12 ∧
      (∀ k, k < 25 → 0 < k → hop_iter k 12 ≠ 12) ∧
      (∀ t, t < 25 → ∃ k, k < 25 ∧ hop_iter k 12 = t) ∧
      Nat.gcd 7 25 = 1) :=
  ⟨by decide, hop_full_period 12 (by decide)⟩

open RfidrTargetEpc

/-- Claim C6 counterexample: with both paths passing and I's capture showing
`i_main_mag = 10 > q_main_mag = 1`, the claimed policy chooses I (`some 0`),
but `program_core` compares I's main magnitude with I's own alt magnitude
(`i_alt_mag = 20`) and therefore chooses Q (`some 1`). -/
theorem program_path_selection_differs_from_claim :
    program_q_select ⟨true, true, zero_epc, zero_epc, 0xD4, 0xD4, 10, 20, 1, 0⟩ = some 1 ∧
    program_q_claim_policy ⟨true, true, zero_epc, zero_epc, 0xD4, 0xD4, 10, 20, 1, 0⟩ = some 0 := by
  constructor <;> decide

/-- Claim C6 (amended): `program_core` selects its demodulation path from the
passing capture alone — if the I path passed it chooses I exactly when the I
capture's main magnitude exceeds its alt magnitude (and Q otherwise,
regardless of Q's pass flag); if only the Q path passed it chooses Q exactly
when the Q capture's main magnitude exceeds its alt magnitude (and I
otherwise); if neither passed the operation fails with an error. -/
theorem program_q_select_spec (r : RfidrReturn) :
    (program_q_select r = none ↔ r.i_pass = false ∧ r.q_pass = false) ∧
    (r.i_pass = true →
      program_q_select r = some (if r.i_alt_mag < r.i_main_mag then 0 else 1)) ∧
    (r.i_pass = false → r.q_pass = true →
      program_q_select r = some (if r.q_alt_mag < r.q_main_mag then 1 else 0)) := by
  cases hi : r.i_pass <;> cases hq : r.q_pass <;>
    simp [program_q_select, hi, hq]

/-- Witness for `program_q_select_spec`: only the I path passed with
`i_main_mag = 5 > i_alt_mag = 2`, so the I path (`some 0`) is selected. -/
theorem program_q_select_spec_witness :
    program_q_select ⟨true, false, zero_epc, zero_epc, 0xD4, 0xD4, 5, 2, 0, 0⟩ = some 0 := by
  have h :=
    (program_q_select_spec ⟨true, false, zero_epc, zero_epc, 0xD4, 0xD4, 5, 2, 0, 0⟩).2.1 rfl
  simpa using h

/-- Claim C3: for a hardware peer that always reports a nonzero radio exit
code, the `program_core` retry loop performs `MAX_PROG_RETRIES + 1`
programming attempts, issues the end-radio-FSM-loop signal exactly once (on
the last of those attempts), makes one additional go/ack pass so the
hardware can leave its loop — `MAX_PROG_RETRIES + 1 + 1` go/ack handshakes
in total — and then surfaces failure to the caller. -/
theorem program_retry_exhaustion (env : ProgEnv) (c : Bool)
    (h : ∀ i, env.exitCode i ≠ 0) :
    (program_core_retries env c).goPulses = MAX_PROG_RETRIES + 1 + 1 ∧
    (program_core_retries env c).endSignals = 1 ∧
    (program_core_retries env c).ok = false := by
  have h0 := h 0
  have h1 := h 1
  have h2 := h 2
  have h3 := h 3
  have h4 := h 4
  have h5 := h 5
  have h6 := h 6
  simp [program_core_retries, program_retry_loop, MAX_PROG_RETRIES,
    h0, h1, h2, h3, h4, h5, h6]

/-- Witness for `program_retry_exhaustion` with the constant exit code 1. -/
theorem program_retry_exhaustion_witness :
    (program_core_retries ⟨fun _ => 1, true⟩ true).goPulses = MAX_PROG_RETRIES + 1 + 1 ∧
    (program_core_retries ⟨fun _ => 1, true⟩ true).endSignals = 1 ∧
    (program_core_retries ⟨fun _ => 1, true⟩ true).ok = false :=
  program_retry_exhaustion ⟨fun _ => 1, true⟩ true fun _ => Nat.one_ne_zero

/-- Claim C9: `search_core` resets every result field to its documented
default before the run, and a path whose exchange did not succeed (nonzero
exit code, outside the debug-only PLL-check mode whose pass branch ignores
the exit code) keeps all its defaults — independently of whatever the
caller's structure held before the call, so no stale data survives. -/
theorem search_core_defaults_on_fail (env : SearchEnv) (target : RfidrTargetEpc)
    (re rm rl : Bool) (ret ret' : RfidrReturn)
    (htgt : target ≠ TARGET_PLL_EPC) :
    (env.exitCodeI ≠ 0 →
      (search_core env target re rm rl ret).i_pass = false ∧
      (search_core env target re rm rl ret).i_epc = zero_epc ∧
      (search_core env target re rm rl ret).i_lna_gain = 0xD4 ∧
      (search_core env target re rm rl ret).i_main_mag = 0 ∧
      (search_core env target re rm rl ret).i_alt_mag = 0) ∧
    (env.exitCodeQ ≠ 0 →
      (search_core env target re rm rl ret).q_pass = false ∧
      (search_core env target re rm rl ret).q_epc = zero_epc ∧
      (search_core env target re rm rl ret).q_lna_gain = 0xD4 ∧
      (search_core env target re rm rl ret).q_main_mag = 0 ∧
      (search_core env target re rm rl ret).q_alt_mag = 0) ∧
    search_core env target re rm rl ret = search_core env target re rm rl ret' := by
  refine ⟨fun hI => ?_, fun hQ => ?_, rfl⟩ <;>
    by_cases hI' : env.exitCodeI = 0 <;> by_cases hQ' : env.exitCodeQ = 0 <;>
    cases re <;> cases rm <;> cases rl <;>
    simp_all [search_core, htgt]

/-- Witness for `search_core_defaults_on_fail`: a failing run over a dirty
caller structure still yields the I-path defaults. -/
theorem search_core_defaults_on_fail_witness :
    (search_core search_env_fail_w TARGET_APP_SPECD_EPC true true true stale_return_w).i_pass = false ∧
    (search_core search_env_fail_w TARGET_APP_SPECD_EPC true true true stale_return_w).i_epc = zero_epc ∧
    (search_core search_env_fail_w TARGET_APP_SPECD_EPC true true true stale_return_w).i_lna_gain = 0xD4 ∧
    (search_core search_env_fail_w TARGET_APP_SPECD_EPC true true true stale_return_w).i_main_mag = 0 ∧
    (search_core search_env_fail_w TARGET_APP_SPECD_EPC true true true stale_return_w).i_alt_mag = 0 :=
  (search_core_defaults_on_fail search_env_fail_w TARGET_APP_SPECD_EPC
    true true true stale_return_w stale_return_w (by decide)).1 (by decide)

/-- One slot iteration of `inventory_core`: on abort the final tag count has
reached the bound (and at least one tag was found) and `end_inventory` ran
once; otherwise the `InvOk` invariant and the `end_inventory` count are
preserved.  The nonce, hop and round counters are untouched either way. -/
theorem inv_exchange_spec (env : InvEnv) (maxTags : Nat) (st : InvSt) :
    ((inv_exchange env maxTags st).2 = true →
      1 ≤ (inv_exchange env maxTags st).1.tags ∧
      maxTags ≤ (inv_exchange env maxTags st).1.tags ∧
      (inv_exchange env maxTags st).1.endCalls = st.endCalls + 1) ∧
    ((inv_exchange env maxTags st).2 = false →
      (InvOk maxTags st → InvOk maxTags (inv_exchange env maxTags st).1) ∧
      (inv_exchange env maxTags st).1.endCalls = st.endCalls) ∧
    (inv_exchange env maxTags st).1.nonce = st.nonce ∧
    (inv_exchange env maxTags st).1.hops = st.hops ∧
    (inv_exchange env maxTags st).1.rounds = st.rounds := by
  unfold inv_exchange end_inventory InvOk
  by_cases hx : env.exitCode st.pulses = 0 <;> simp [hx]
  by_cases hm : maxTags ≤ st.tags + 1 <;> simp [hm] <;> omega


/-- `inv_exchange_spec` lifted through the `loop_q_iter` slot loop. -/
theorem inv_q_iters_spec (env : InvEnv) (maxTags : Nat) :
    ∀ (n : Nat) (st : InvSt),
    ((inv_q_iters env maxTags n st).2 = true →
      1 ≤ (inv_q_iters env maxTags n st).1.tags ∧
      maxTags ≤ (inv_q_iters env maxTags n st).1.tags ∧
      (inv_q_iters env maxTags n st).1.endCalls = st.endCalls + 1) ∧
    ((inv_q_iters env maxTags n st).2 = false →
      (InvOk maxTags st → InvOk maxTags (inv_q_iters env maxTags n st).1) ∧
      (inv_q_iters env maxTags n st).1.endCalls = st.endCalls) ∧
    (inv_q_iters env maxTags n st).1.nonce = st.nonce ∧
    (inv_q_iters env maxTags n st).1.hops = st.hops ∧
    (inv_q_iters env maxTags n st).1.rounds = st.rounds := by
  intro n
  induction n with
  | zero => intro st; simp [inv_q_iters]
  | succ n ih =>
    intro st
    have hex := inv_exchange_spec env maxTags st
    rcases hcall : inv_exchange env maxTags st with ⟨st1, b⟩
    rw [hcall] at hex
    cases b with
    | true =>
      simp only [inv_q_iters, hcall]
      obtain ⟨ht, -, hn, hh, hr⟩ := hex
      obtain ⟨ht1, ht2, ht3⟩ := ht rfl
      exact ⟨fun _ => ⟨ht1, ht2, ht3⟩, fun hfalse => by simp at hfalse,
        hn, hh, hr⟩
    | false =>
      simp only [inv_q_iters, hcall]
      obtain ⟨-, hc, hn, hh, hr⟩ := hex
      obtain ⟨hok1, hec1⟩ := hc rfl
      obtain ⟨iht, ihc, ihn, ihh, ihr⟩ := ih st1
      refine ⟨fun habort => ?_, fun hfine => ?_, ?_, ?_, ?_⟩
      · obtain ⟨j1, j2, j3⟩ := iht habort
        exact ⟨j1, j2, by rw [j3, hec1]⟩
      · obtain ⟨j1, j2⟩ := ihc hfine
        exact ⟨fun hOk => j1 (hok1 hOk), by rw [j2, hec1]⟩
      · rw [ihn, hn]
      · rw [ihh, hh]
      · rw [ihr, hr]

/-- One query round of `inventory_core`: same abort/continuation facts,
with the nonce advanced by one (mod 256) and the hop and round counters by
one. -/
theorem inv_round_spec (env : InvEnv) (maxTags q : Nat) (st : InvSt) :
    ((inv_round env maxTags q st).2 = true →
      1 ≤ (inv_round env maxTags q st).1.tags ∧
      maxTags ≤ (inv_round env maxTags q st).1.tags ∧
      (inv_round env maxTags q st).1.endCalls = st.endCalls + 1) ∧
    ((inv_round env maxTags q st).2 = false →
      (InvOk maxTags st → InvOk maxTags (inv_round env maxTags q st).1) ∧
      (inv_round env maxTags q st).1.endCalls = st.endCalls) ∧
    (inv_round env maxTags q st).1.nonce = (st.nonce + 1) % 256 ∧
    (inv_round env maxTags q st).1.hops = st.hops + 1 ∧
    (inv_round env maxTags q st).1.rounds = st.rounds + 1 := by
  unfold inv_round
  have h1 := inv_q_iters_spec env maxTags (2 ^ q + 1) (inv_round_entry st)
  rcases hcall : inv_q_iters env maxTags (2 ^ q + 1) (inv_round_entry st)
    with ⟨st2, b⟩
  rw [hcall] at h1
  cases b with
  | true =>
    simp only [hcall]
    obtain ⟨ht, -, hn, hh, hr⟩ := h1
    obtain ⟨ht1, ht2, ht3⟩ := ht rfl
    exact ⟨fun _ => ⟨ht1, ht2, ht3⟩, fun hfalse => by simp at hfalse, hn, hh, hr⟩
  | false =>
    simp only [hcall]
    obtain ⟨-, hc, hn, hh, hr⟩ := h1
    obtain ⟨hok1, hec1⟩ := hc rfl
    have h2 := inv_q_iters_spec env maxTags (2 ^ q + 1) st2
    refine ⟨fun habort => ?_, fun hfine => ?_, ?_, ?_, ?_⟩
    · obtain ⟨j1, j2, j3⟩ := h2.1 habort
      refine ⟨j1, j2, ?_⟩
      rw [j3, hec1]
      rfl
    · obtain ⟨j1, j2⟩ := (h2.2.1) hfine
      refine ⟨fun hOk => j1 (hok1 hOk), ?_⟩
      rw [j2, hec1]
      rfl
    · rw [h2.2.2.1, hn]
      rfl
    · rw [h2.2.2.2.1, hh]
      rfl
    · rw [h2.2.2.2.2, hr]
      rfl

/-- `inv_round_spec` lifted through the `loop_query_q` round loop, with the
nonce-tracks-hops and hops-equal-rounds invariants threaded through. -/
theorem inv_run_rounds_spec (env : InvEnv) (maxTags : Nat) (v : List Nat) :
    ∀ (l : List Nat) (st : InvSt),
    ((inv_run_rounds env maxTags v l st).2 = true →
      1 ≤ (inv_run_rounds env maxTags v l st).1.tags ∧
      maxTags ≤ (inv_run_rounds env maxTags v l st).1.tags ∧
      (inv_run_rounds env maxTags v l st).1.endCalls = st.endCalls + 1) ∧
    ((inv_run_rounds env maxTags v l st).2 = false →
      (InvOk maxTags st → InvOk maxTags (inv_run_rounds env maxTags v l st).1) ∧
      (inv_run_rounds env maxTags v l st).1.endCalls = st.endCalls) ∧
    (∀ n0, st.nonce = (n0 + st.hops) % 256 →
      (inv_run_rounds env maxTags v l st).1.nonce =
        (n0 + (inv_run_rounds env maxTags v l st).1.hops) % 256) ∧
    (st.hops = st.rounds →
      (inv_run_rounds env maxTags v l st).1.hops =
        (inv_run_rounds env maxTags v l st).1.rounds) := by
  intro l
  induction l with
  | nil => intro st; simp [inv_run_rounds]
  | cons i rest ih =>
    intro st
    have hrd := inv_round_spec env maxTags (inv_q_value v i) st
    rcases hcall : inv_round env maxTags (inv_q_value v i) st with ⟨st1, b⟩
    rw [hcall] at hrd
    obtain ⟨hrdT, hrdF, hrdN, hrdH, hrdR⟩ := hrd
    cases b with
    | true =>
      simp only [inv_run_rounds, hcall]
      obtain ⟨ht1, ht2, ht3⟩ := hrdT rfl
      refine ⟨fun _ => ⟨ht1, ht2, ht3⟩, fun hfalse => by simp at hfalse,
        fun n0 hinv => ?_, fun heq => ?_⟩
      · rw [hrdN, hrdH, hinv]
        omega
      · rw [hrdH, hrdR, heq]
    | false =>
      simp only [inv_run_rounds, hcall]
      obtain ⟨hok1, hec1⟩ := hrdF rfl
      obtain ⟨ihT, ihF, ihN, ihH⟩ := ih st1
      refine ⟨fun habort => ?_, fun hfine => ?_, fun n0 hinv => ?_, fun heq => ?_⟩
      · obtain ⟨j1, j2, j3⟩ := ihT habort
        exact ⟨j1, j2, by rw [j3, hec1]⟩
      · obtain ⟨j1, j2⟩ := ihF hfine
        exact ⟨fun hOk => j1 (hok1 hOk), by rw [j2, hec1]⟩
      · refine ihN n0 ?_
        rw [hrdN, hrdH, hinv]
        omega
      · refine ihH ?_
        rw [hrdH, hrdR, heq]

/-- Claim C4 counterexample: with hardware that singulates a tag on every
exchange and `max_tags = 1`, the discovered-tag count never exceeds the
bound (it stops at exactly 1), yet `inventory_core` aborts with an error —
the source test is `m_num_inv_tags_found >= max_tags`, not `>`.  The
`end_inventory` cleanup still runs exactly once. -/
theorem inventory_aborts_at_exactly_max_tags :
    (inventory_core ⟨fun _ => 0⟩ [51] 1 12 0).2 = true ∧
    (inventory_core ⟨fun _ => 0⟩ [51] 1 12 0).1.tags ≤ 1 ∧
    (inventory_core ⟨fun _ => 0⟩ [51] 1 12 0).1.endCalls = 1 := by
  refine ⟨rfl, ?_, rfl⟩
  decide

/-- Claim C4 (amended): in a fault-free run, `inventory_core` returns an
error exactly when the discovered-tag count reaches (`>=`) the supplied
`max_tags` bound — equivalently, at least one tag was found and the final
count is at least the bound — and the `end_inventory` cleanup (disable PA,
signal the FPGA to end its loop, one final go/ack handshake) runs exactly
once on both normal completion and abort. -/
theorem inventory_error_iff_population_reached (env : InvEnv) (v : List Nat)
    (maxTags slot nonce : Nat) :
    ((inventory_core env v maxTags slot nonce).2 = true ↔
      1 ≤ (inventory_core env v maxTags slot nonce).1.tags ∧
      maxTags ≤ (inventory_core env v maxTags slot nonce).1.tags) ∧
    (inventory_core env v maxTags slot nonce).1.endCalls = 1 := by
  unfold inventory_core
  dsimp only
  have h := inv_run_rounds_spec env maxTags v (inv_round_idxs v)
    ⟨0, 0, nonce, slot, 0, 0, 0, 0⟩
  rcases hcall : inv_run_rounds env maxTags v (inv_round_idxs v)
    ⟨0, 0, nonce, slot, 0, 0, 0, 0⟩ with ⟨st, b⟩
  rw [hcall] at h
  cases b with
  | true =>
    obtain ⟨h1, h2, h3⟩ := h.1 rfl
    have h1' : 1 ≤ st.tags := h1
    have h2' : maxTags ≤ st.tags := h2
    have h3' : st.endCalls = 0 + 1 := h3
    refine ⟨⟨fun _ => ⟨h1', h2'⟩, fun _ => rfl⟩, ?_⟩
    show st.endCalls = 1
    omega
  | false =>
    obtain ⟨hok, hec⟩ := h.2.1 rfl
    have hOk : st.tags = 0 ∨ st.tags < maxTags := hok (Or.inl rfl)
    have hec' : st.endCalls = 0 := hec
    refine ⟨⟨fun hfalse => ?_, fun hc => ?_⟩, ?_⟩
    · exact absurd (show (false : Bool) = true from hfalse) (by decide)
    · exfalso
      have hc1 : 1 ≤ st.tags := hc.1
      have hc2 : maxTags ≤ st.tags := hc.2
      omega
    · show st.endCalls + 1 = 1
      omega

/-- With a hardware peer whose exit code is never zero (no tag ever
singulated), no round aborts and the round counter advances once per
executed round index. -/
theorem inv_no_tags_rounds (env : InvEnv) (h : ∀ k, env.exitCode k ≠ 0)
    (maxTags : Nat) (v : List Nat) :
    ∀ (l : List Nat) (st : InvSt),
    (inv_run_rounds env maxTags v l st).2 = false ∧
    (inv_run_rounds env maxTags v l st).1.rounds = st.rounds + l.length := by
  have hex : ∀ st : InvSt,
      inv_exchange env maxTags st = ({ st with pulses := st.pulses + 1 }, false) := by
    intro st
    simp [inv_exchange, h st.pulses]
  have hq : ∀ (n : Nat) (st : InvSt),
      (inv_q_iters env maxTags n st).2 = false := by
    intro n
    induction n with
    | zero => intro st; simp [inv_q_iters]
    | succ n ih =>
      intro st
      simp only [inv_q_iters, hex st]
      exact ih _
  have hrd : ∀ (q : Nat) (st : InvSt),
      (inv_round env maxTags q st).2 = false := by
    intro q st
    unfold inv_round
    rcases hcall : inv_q_iters env maxTags (2 ^ q + 1) (inv_round_entry st)
      with ⟨st2, b⟩
    have hb : b = false := by
      have := hq (2 ^ q + 1) (inv_round_entry st)
      rw [hcall] at this
      exact this
    subst hb
    simp only [hcall]
    exact hq _ _
  intro l
  induction l with
  | nil => intro st; simp [inv_run_rounds]
  | cons i rest ih =>
    intro st
    rcases hcall : inv_round env maxTags (inv_q_value v i) st with ⟨st1, b⟩
    have hb : b = false := by
      have := hrd (inv_q_value v i) st
      rw [hcall] at this
      exact this
    subst hb
    have hr1 : st1.rounds = st.rounds + 1 := by
      have := (inv_round_spec env maxTags (inv_q_value v i) st).2.2.2.2
      rw [hcall] at this
      exact this
    simp only [inv_run_rounds, hcall]
    obtain ⟨ih1, ih2⟩ := ih st1
    refine ⟨ih1, ?_⟩
    rw [ih2, hr1, List.length_cons]
    omega

/-- Claim C2: for the 3-element query-Q vector `"333"` (3 non-null
elements, well below `QUERY_ROUND_LIMIT`), the `loop_query_q` loop of
`inventory_core` — whose condition reads `(*(query_q_vector+loop_query_q)
!= 0) || loop_query_q < QUERY_ROUND_LIMIT` — keeps iterating past the null
terminator and executes 36 query rounds, not 3. -/
theorem inventory_rounds_not_vector_length :
    (inv_round_idxs [51, 51, 51]).length = QUERY_ROUND_LIMIT ∧
    (inventory_core ⟨fun _ => 1⟩ [51, 51, 51] 51 12 0).1.rounds = QUERY_ROUND_LIMIT ∧
    QUERY_ROUND_LIMIT ≠ 3 := by
  refine ⟨by decide, ?_, by decide⟩
  unfold inventory_core
  dsimp only
  have hno := inv_no_tags_rounds ⟨fun _ => 1⟩ (fun _ => Nat.one_ne_zero)
    51 [51, 51, 51] (inv_round_idxs [51, 51, 51]) ⟨0, 0, 0, 12, 0, 0, 0, 0⟩
  rcases hcall : inv_run_rounds ⟨fun _ => 1⟩ 51 [51, 51, 51]
    (inv_round_idxs [51, 51, 51]) ⟨0, 0, 0, 12, 0, 0, 0, 0⟩ with ⟨st, b⟩
  rw [hcall] at hno
  have hb : b = false := hno.1
  subst hb
  show st.rounds = 36
  have hlen : (inv_round_idxs [51, 51, 51]).length = 36 := by decide
  have hr : st.rounds = 0 + (inv_round_idxs [51, 51, 51]).length := hno.2
  rw [hlen] at hr
  omega

open RfidrState in
/-- Claim C10: the hop/skip nonce is incremented (mod 256, it is a
`uint8_t`) exactly once by every hop — every `hop_sx1257_frequency` call
site performs the composite `hop_and_bump_nonce` step — and is never touched
by a skip (`set_sx1257_frequency`), so the measurement taken after a hop and
the skip measurement that follows it carry the same nonce; in the inventory
flow the nonce advances by exactly the number of hops performed, which
equals the number of query rounds started. -/
theorem hopskip_nonce_coupling :
    (∀ st : SxState, (hop_and_bump_nonce st).nonce = (st.nonce + 1) % 256) ∧
    (∀ (st : SxState) (f : Nat), (skip_step st f).nonce = st.nonce) ∧
    (∀ (st : SxState) (f : Nat),
      (skip_step (hop_and_bump_nonce st) f).nonce = (hop_and_bump_nonce st).nonce) ∧
    (∀ (env : InvEnv) (v : List Nat) (maxTags slot nonce : Nat),
      nonce < 256 →
      (inventory_core env v maxTags slot nonce).1.nonce =
        (nonce + (inventory_core env v maxTags slot nonce).1.hops) % 256) ∧
    (∀ (env : InvEnv) (v : List Nat) (maxTags slot nonce : Nat),
      (inventory_core env v maxTags slot nonce).1.hops =
        (inventory_core env v maxTags slot nonce).1.rounds) := by
  refine ⟨fun st => rfl, fun st f => rfl, fun st f => rfl,
    fun env v maxTags slot nonce hn => ?_, fun env v maxTags slot nonce => ?_⟩
  · unfold inventory_core
    dsimp only
    have h := inv_run_rounds_spec env maxTags v (inv_round_idxs v)
      ⟨0, 0, nonce, slot, 0, 0, 0, 0⟩
    rcases hcall : inv_run_rounds env maxTags v (inv_round_idxs v)
      ⟨0, 0, nonce, slot, 0, 0, 0, 0⟩ with ⟨st, b⟩
    rw [hcall] at h
    have hbase : (⟨0, 0, nonce, slot, 0, 0, 0, 0⟩ : InvSt).nonce =
        (nonce + (⟨0, 0, nonce, slot, 0, 0, 0, 0⟩ : InvSt).hops) % 256 := by
      simp
      omega
    have hfin := h.2.2.1 nonce hbase
    cases b with
    | true => exact hfin
    | false => exact hfin
  · unfold inventory_core
    dsimp only
    have h := inv_run_rounds_spec env maxTags v (inv_round_idxs v)
      ⟨0, 0, nonce, slot, 0, 0, 0, 0⟩
    rcases hcall : inv_run_rounds env maxTags v (inv_round_idxs v)
      ⟨0, 0, nonce, slot, 0, 0, 0, 0⟩ with ⟨st, b⟩
    rw [hcall] at h
    have hfin := h.2.2.2 rfl
    cases b with
    | true => exact hfin
    | false => exact hfin

/-- Witness for the nonce-tracking conjunct of `hopskip_nonce_coupling` at a
concrete starting nonce. -/
theorem hopskip_nonce_coupling_witness :
    (0 : Nat) < 256 ∧
    (inventory_core ⟨fun _ => 1⟩ [] 5 12 0).1.nonce =
      (0 + (inventory_core ⟨fun _ => 1⟩ [] 5 12 0).1.hops) % 256 :=
  ⟨by decide, hopskip_nonce_coupling.2.2.2.1 ⟨fun _ => 1⟩ [] 5 12 0 (by decide)⟩

end Rfidr
